import Mathlib

/-!
Shallow embedding of the content-gap-analyser application (src/app.py).

The application ingests saved HTML snapshots of a social-video profile
page.  Its core pipeline is:

* `convert_views_to_numeric` — normalizes human-readable view-count
  strings such as "33.8K" into integers (src/app.py lines 18-31);
* `parse_html_file` — extracts one `VideoRecord` per post container
  from one uploaded document (lines 33-80), with per-container failure
  isolation;
* the aggregation loop over uploaded files (lines 199-203);
* `get_common_topics` — word-frequency statistics over captions
  (lines 151-181);
* the viral ranking `df.sort_values(by='Numeric Views',
  ascending=False).head(top_n)` (line 244).

Python built-ins are modelled at the character-list level so that the
definitions are executable and inductively analysable:

* `pyStrip` models `str.strip()` (space, tab, CR, LF; Python also
  strips form feed, vertical tab and some Unicode space characters,
  which no claim exercises);
* `pyContains` models `c in s` for a single character `c`;
* `pyRemoveChar` models `s.replace(c, "")`;
* `pySplitChar` models `s.split(c)`;
* `pyParseInt` models `int(s)` on string arguments (Python additionally
  accepts underscore digit separators and non-ASCII digits, which no
  claim exercises);
* `pyParseFloat` models `float(s)`: decimal literals are evaluated as
  exact decimal values rather than IEEE doubles (rounding is not
  modelled; every concrete value appearing in a claim was checked to be
  unaffected by double rounding), and the "inf"/"infinity"/"nan" literal
  forms are modelled explicitly because `int(float('inf'))` raises an
  uncaught `OverflowError` in the source while `int(float('nan'))`
  raises a `ValueError` that the source catches;
* `pyTrunc` models `int(x)` on a finite float: truncation toward zero.

Functions that can raise an uncaught Python exception are embedded with
result type `Except String _`, the `String` naming the exception class.
-/

deriving instance DecidableEq for Except

namespace ContentGap

/-- Value of a string of decimal digits, most significant first. -/
def natOfDigits (ds : List Char) : Nat :=
  ds.foldl (fun n c => 10 * n + (c.toNat - 48)) 0

/-- Model of Python `str.strip()`: drop leading and trailing whitespace. -/
def pyStrip (s : String) : String :=
  ⟨((s.data.dropWhile Char.isWhitespace).reverse.dropWhile Char.isWhitespace).reverse⟩

/-- Model of Python `c in s` for a single character `c`. -/
def pyContains (s : String) (c : Char) : Bool :=
  s.data.contains c

/-- Model of Python `s.replace(c, "")`: remove every occurrence of `c`. -/
def pyRemoveChar (s : String) (c : Char) : String :=
  ⟨s.data.filter (fun d => d ≠ c)⟩

/-- Optional leading sign of a numeric literal: (isNegative, rest). -/
def parseSign : List Char → Bool × List Char
  | '-' :: cs => (true, cs)
  | '+' :: cs => (false, cs)
  | cs => (false, cs)

/-- Exact decimal value `num / 10 ^ scale`.  Every finite value built by
`float()` from a decimal literal is of this shape, and the only
arithmetic the source performs on it (multiplication by 1000 or
1000000, then `int()`) stays in this shape, so the embedding can track
float values exactly. -/
structure DecValue where
  num : ℤ
  scale : ℕ
deriving DecidableEq, Repr

/-- Multiplication of a decimal value by a natural constant (models the
float multiplications `* 1000` and `* 1000000`, which are exact on the
values any claim exercises). -/
def DecValue.mulNat (v : DecValue) (m : ℕ) : DecValue :=
  ⟨v.num * (m : ℤ), v.scale⟩

/-- Values of Python `float(s)` relevant to this program: a finite value
(held exactly), a signed infinity, or NaN. -/
inductive PyFloat where
  | finite (v : DecValue)
  | infinite (neg : Bool)
  | nan
deriving DecidableEq, Repr

/-- Value of the literal `intPart . fracPart` as an exact decimal. -/
def mantissaVal (ip fp : List Char) : DecValue :=
  ⟨(natOfDigits (ip ++ fp) : ℤ), fp.length⟩

/-- Apply a decimal exponent `(eneg, e)` to a mantissa. -/
def applyExp (v : DecValue) (eneg : Bool) (e : Nat) : DecValue :=
  if eneg then ⟨v.num, v.scale + e⟩ else ⟨v.num * (10 : ℤ) ^ e, v.scale⟩

/-- Attach a sign to a decimal value. -/
def signVal (neg : Bool) (v : DecValue) : DecValue :=
  if neg then ⟨-v.num, v.scale⟩ else v

/-- Fractional part of a float literal: `'.' digits` (digits may be empty). -/
def parseFrac : List Char → List Char × List Char
  | '.' :: rest => (rest.takeWhile Char.isDigit, rest.dropWhile Char.isDigit)
  | cs => ([], cs)

/-- Optional exponent part `(e|E) [sign] digits` of a float literal; the
whole remainder must be consumed. -/
def parseExpPart (v : DecValue) : List Char → Option DecValue
  | [] => some v
  | c :: rest =>
    if c = 'e' ∨ c = 'E' then
      let sn := parseSign rest
      let ed := sn.2.takeWhile Char.isDigit
      let r := sn.2.dropWhile Char.isDigit
      if ed = [] ∨ r ≠ [] then none
      else some (applyExp v sn.1 (natOfDigits ed))
    else none

/-- Core of Python `float(s)` on an already stripped character list:
optional sign, then either an infinity/NaN literal or a decimal literal
`digits [. digits] [(e|E) [sign] digits]` with at least one digit in the
mantissa. -/
def pyParseFloatCore (cs0 : List Char) : Option PyFloat :=
  let sn := parseSign cs0
  let low := sn.2.map Char.toLower
  if low = ['i', 'n', 'f'] ∨ low = ['i', 'n', 'f', 'i', 'n', 'i', 't', 'y'] then
    some (.infinite sn.1)
  else if low = ['n', 'a', 'n'] then
    some .nan
  else
    let ip := sn.2.takeWhile Char.isDigit
    let r1 := sn.2.dropWhile Char.isDigit
    let fr := parseFrac r1
    if ip = [] ∧ fr.1 = [] then none
    else
      match parseExpPart (mantissaVal ip fr.1) fr.2 with
      | some v => some (.finite (signVal sn.1 v))
      | none => none

/-- Model of Python `float(s)` on strings (which strips whitespace first);
`none` models a `ValueError`. -/
def pyParseFloat (s : String) : Option PyFloat :=
  pyParseFloatCore (pyStrip s).data

/-- Model of Python `int(s)` on strings: optional sign and a non-empty
run of digits, after stripping whitespace; `none` models a `ValueError`. -/
def pyParseInt (s : String) : Option ℤ :=
  let sn := parseSign (pyStrip s).data
  if sn.2 = [] ∨ ¬ sn.2.all Char.isDigit then none
  else if sn.1 then some (-(natOfDigits sn.2 : ℤ)) else some (natOfDigits sn.2 : ℤ)

/-- Model of Python `int(x)` on a finite float value: truncation toward
zero. -/
def pyTrunc (v : DecValue) : ℤ :=
  if 0 ≤ v.num then ((v.num.toNat / 10 ^ v.scale : ℕ) : ℤ)
  else -(((-v.num).toNat / 10 ^ v.scale : ℕ) : ℤ)

/-- Embedding of `convert_views_to_numeric` (src/app.py lines 18-31):

    views_str = str(views_str).strip()
    try:
        if 'K' in views_str:
            return int(float(views_str.replace('K', '')) * 1000)
        elif 'M' in views_str:
            return int(float(views_str.replace('M', '')) * 1000000)
        else:
            return int(views_str)
    except ValueError:
        return 0

A `ValueError` — from `float`/`int` on a malformed literal, or from
`int` applied to NaN — is caught and yields `.ok 0`.  `int` applied to
an infinite float raises `OverflowError`, which the `except ValueError`
clause does not catch, so it escapes as `.error "OverflowError"`. -/
def convert_views_to_numeric (views_str : String) : Except String ℤ :=
  let s := pyStrip views_str
  if pyContains s 'K' then
    match pyParseFloat (pyRemoveChar s 'K') with
    | some (.finite v) => .ok (pyTrunc (v.mulNat 1000))
    | some (.infinite _) => .error "OverflowError"
    | some .nan => .ok 0
    | none => .ok 0
  else if pyContains s 'M' then
    match pyParseFloat (pyRemoveChar s 'M') with
    | some (.finite v) => .ok (pyTrunc (v.mulNat 1000000))
    | some (.infinite _) => .error "OverflowError"
    | some .nan => .ok 0
    | none => .ok 0
  else
    match pyParseInt s with
    | some n => .ok n
    | none => .ok 0

/-- Comparison definition for the specification's §4.1 suffix rule (shared
by the "K" and "M" cases): strip the suffix character, parse the remainder
as a float, multiply by the given multiplier, truncate toward zero; a
failed parse (rule 5) yields 0, an infinite value overflows. -/
def suffixRule (s : String) (c : Char) (mult : ℕ) : Except String ℤ :=
  match pyParseFloat (pyRemoveChar s c) with
  | some (.finite v) => .ok (pyTrunc (v.mulNat mult))
  | some (.infinite _) => .error "OverflowError"
  | some .nan => .ok 0
  | none => .ok 0

/-- Comparison definition written from the specification's §4.1 ordered
rules: (1) trim whitespace; (2) if the string contains uppercase "K",
apply the suffix rule with multiplier 1,000; (3) else likewise for "M"
with multiplier 1,000,000; (4) else parse the whole string as an
integer; (5) a failed parse yields 0. -/
def parseViews_spec (raw : String) : Except String ℤ :=
  let s := pyStrip raw
  if pyContains s 'K' then suffixRule s 'K' 1000
  else if pyContains s 'M' then suffixRule s 'M' 1000000
  else
    match pyParseInt s with
    | some n => .ok n
    | none => .ok 0

example : convert_views_to_numeric "33.8K" = .ok 33800 := by decide
example : convert_views_to_numeric "795.7M" = .ok 795700000 := by decide
example : convert_views_to_numeric "1234" = .ok 1234 := by decide
example : convert_views_to_numeric "" = .ok 0 := by decide
example : convert_views_to_numeric "abc" = .ok 0 := by decide
example : convert_views_to_numeric "33.8k" = .ok 0 := by decide
example : convert_views_to_numeric "-5" = .ok (-5) := by decide
example : convert_views_to_numeric "infK" = .error "OverflowError" := by decide
example : convert_views_to_numeric "nanK" = .ok 0 := by decide
example : convert_views_to_numeric " 1234 " = .ok 1234 := by decide
example : convert_views_to_numeric "1.5e2K" = .ok 150000 := by decide
example : convert_views_to_numeric "-1.5K" = .ok (-1500) := by decide
example : convert_views_to_numeric ".5K" = .ok 500 := by decide
example : convert_views_to_numeric "5.K" = .ok 5000 := by decide
example : convert_views_to_numeric "3.2e-1K" = .ok 320 := by decide

/-- One extracted row `[video_link, profile_name, views, caption]` as
appended by `parse_html_file` (src/app.py line 74 / 78). -/
structure VideoRecord where
  link : String
  profileName : String
  views : String
  caption : String
deriving DecidableEq, Repr

/-- Split a character list at every occurrence of `sep`, keeping empty
chunks, as Python `str.split(sep)` does: `"" ↦ [""]`, `"/" ↦ ["", ""]`. -/
def splitChars (sep : Char) : List Char → List (List Char)
  | [] => [[]]
  | c :: cs =>
    if c = sep then [] :: splitChars sep cs
    else
      match splitChars sep cs with
      | [] => [[c]]
      | h :: t => (c :: h) :: t

/-- Model of Python `s.split(c)` for a single-character separator. -/
def pySplitChar (c : Char) (s : String) : List String :=
  (splitChars c s.data).map (fun l => ⟨l⟩)

/-- Model of Python `s.startswith(pre)`. -/
def pyStartsWith (s pre : String) : Bool :=
  pre.data.isPrefixOf s.data

/-- Embedding of the profile-name derivation inside `parse_html_file`
(src/app.py lines 58-66):

    profile_name = "N/A"
    if video_link != "N/A":
        try:
            parts = video_link.split('/')
            if len(parts) > 3 and parts[3].startswith('@'):
                profile_name = parts[3]
        except Exception:
            pass

The body of the inner `try` is total, so the `except` arm is dead; the
guard `len(parts) > 3 and parts[3].startswith('@')` is modelled by the
option lookup `parts[3]?`. -/
def extractProfileName (video_link : String) : String :=
  if video_link = "N/A" then "N/A"
  else
    match (pySplitChar '/' video_link)[3]? with
    | some p => if pyStartsWith p "@" then p else "N/A"
    | none => "N/A"

/-- One `div[data-e2e="user-post-item"]` container as seen by the
extraction loop, reduced to the four DOM lookups the loop performs:

* `linkHref`: the first anchor element — `none` if there is no anchor,
  `some none` if the anchor has no `href` attribute, `some (some h)`
  otherwise;
* `viewsText`: text of the first `strong[data-e2e="video-views"]`
  element, if present;
* `imgAlt`: the first image element — `none` if there is no image,
  `some none` if it has no `alt` attribute, `some (some a)` otherwise;
* `failure`: `some e` models an exception with text `e` raised inside
  the per-container `try` block (src/app.py line 76), the situation the
  `except` arm turns into a sentinel record. -/
structure Container where
  linkHref : Option (Option String)
  viewsText : Option String
  imgAlt : Option (Option String)
  failure : Option String
deriving DecidableEq, Repr

/-- Embedding of one iteration of the container loop of
`parse_html_file` (src/app.py lines 52-78): on failure the sentinel row
`["PARSE_ERROR", "N/A", "N/A", str(e)]`, otherwise the row built from
the four lookups with their individual absence defaults. -/
def extractContainer (c : Container) : VideoRecord :=
  match c.failure with
  | some e => ⟨"PARSE_ERROR", "N/A", "N/A", e⟩
  | none =>
    let video_link :=
      match c.linkHref with
      | some (some href) => href
      | _ => "N/A"
    ⟨video_link, extractProfileName video_link,
      c.viewsText.getD "0",
      match c.imgAlt with
      | some (some alt) => alt
      | _ => "N/A"⟩

/-- One uploaded document: its name and either its container list or a
read/decode failure (src/app.py lines 39-43).  The DOM parsing itself is
abstracted to the resulting list of post-item containers, which is the
granularity at which the source (and the specification) operate. -/
structure UploadedFile where
  name : String
  content : Except String (List Container)
deriving DecidableEq, Repr

/-- Embedding of `parse_html_file` (src/app.py lines 33-80).  The second
component collects the user-facing diagnostics (`st.error` /
`st.warning` texts) the function emits:

* a read/decode failure yields no records and one message keyed by the
  file name;
* an empty container list yields no records and one warning;
* otherwise one record per container, plus one message per container
  whose extraction failed. -/
def parse_html_file (f : UploadedFile) : List VideoRecord × List String :=
  match f.content with
  | .error e => ([], ["Error reading file " ++ f.name ++ ": " ++ e])
  | .ok containers =>
    if containers = [] then
      ([], ["No video posts found in " ++ f.name ++ "."])
    else
      (containers.map extractContainer,
        containers.filterMap (fun c =>
          c.failure.map (fun e => "Error parsing a video item in " ++ f.name ++ ": " ++ e)))

/-- Embedding of the aggregation loop (src/app.py lines 199-203):

    all_video_data = []
    for file in uploaded_files:
        data = parse_html_file(file)
        all_video_data.extend(data)

together with the diagnostics emitted along the way. -/
def aggregate (files : List UploadedFile) : List VideoRecord × List String :=
  files.foldl
    (fun acc f =>
      let pr := parse_html_file f
      (acc.1 ++ pr.1, acc.2 ++ pr.2))
    ([], [])

example : extractProfileName "https://www.tiktok.com/@user/video/123" = "@user" := by decide
example : extractProfileName "N/A" = "N/A" := by decide
example : extractProfileName "foo" = "N/A" := by decide
example : extractProfileName "https://www.tiktok.com/video/123" = "N/A" := by decide
example :
    extractContainer ⟨none, some "10", some (some "cap"), none⟩ =
      ⟨"N/A", "N/A", "10", "cap"⟩ := by decide
example :
    extractContainer ⟨some (some "x"), none, none, some "boom"⟩ =
      ⟨"PARSE_ERROR", "N/A", "N/A", "boom"⟩ := by decide
example :
    parse_html_file ⟨"a.html", .ok []⟩ = ([], ["No video posts found in a.html."]) := by decide

/-- Word character of the regex `\b` boundary (`\w`): ASCII letters,
digits and underscore.  (Python's `re` additionally counts non-ASCII
word characters, which no claim exercises.) -/
def isWordChar (c : Char) : Bool :=
  c.isAlphanum || c = '_'

/-- Worker for `charRuns`: `acc` holds the reversed current run of
characters satisfying `p`; a character not satisfying `p` (or the end of
the input) flushes it. -/
def charRunsAux (p : Char → Bool) : List Char → List Char → List (List Char)
  | [], acc => if acc = [] then [] else [acc.reverse]
  | c :: cs, acc =>
    if p c then charRunsAux p cs (c :: acc)
    else if acc = [] then charRunsAux p cs [] else acc.reverse :: charRunsAux p cs []

/-- Maximal runs of characters satisfying `p`, in order, skipping the
characters that do not satisfy it. -/
def charRuns (p : Char → Bool) (l : List Char) : List (List Char) :=
  charRunsAux p l []

/-- Embedding of `re.findall(r'\b[a-zA-Z0-9]+\b', s)` (src/app.py line
167).  A candidate `[a-zA-Z0-9]+` match is accepted exactly when both
`\b` boundaries hold, i.e. when its neighbouring characters (if any) are
not word characters; since every match character is itself a word
character, the accepted matches are precisely the maximal `\w`-runs
that consist entirely of ASCII letters and digits.  (In particular a
run such as "dog_" yields no match at all: "dog" is followed by the
word character '_', and every shorter candidate ends between two word
characters.) -/
def findallWordTokens (s : List Char) : List (List Char) :=
  (charRuns isWordChar s).filter (fun r => r.all Char.isAlphanum)

/-- The stop-word list of `get_common_topics` (src/app.py lines 156-162),
verbatim, including the duplicated "with". -/
def stop_words : List String :=
  ["a", "an", "the", "is", "in", "of", "to", "by", "with", "and", "created",
    "original", "sound", "s", "t", "m", "for", "on", "it", "its", "this",
    "that", "be", "at", "with", "my", "you", "your", "https", "www", "tiktok",
    "com", "video", "i", "me", "he", "she", "they", "we", "are", "was", "were",
    "not", "but", "so", "up", "out", "if", "all", "new", "get", "just", "like"]

/-- Join the given chunks with the separator between consecutive chunks,
as Python `sep.join(xs)` does. -/
def joinWith (sep : List Char) : List (List Char) → List Char
  | [] => []
  | [x] => x
  | x :: y :: rest => x ++ sep ++ joinWith sep (y :: rest)

/-- Model of Python `sep.join(xs)` on strings. -/
def pyJoin (sep : String) (xs : List String) : String :=
  ⟨joinWith sep.data (xs.map String.data)⟩

/-- Model of Python `str.lower()`, character by character. -/
def pyLower (s : String) : String :=
  ⟨s.data.map Char.toLower⟩

/-- First-occurrence order of the distinct elements of a list — the key
order of a Python `collections.Counter` built from it (dict insertion
order). -/
def firstOccurrenceOrder (ws : List String) : List String :=
  ws.foldl (fun acc w => if w ∈ acc then acc else acc ++ [w]) []

/-- The `(element, count)` items of `collections.Counter(ws)`, in dict
insertion order. -/
def counterItems (ws : List String) : List (String × Nat) :=
  (firstOccurrenceOrder ws).map (fun w => (w, ws.count w))

/-- Model of `Counter.most_common(n)`: the items sorted by count
descending — stably, so that items with equal counts keep their
insertion (first-occurrence) order, which is how `heapq.nlargest`
breaks ties — and truncated to the first `n`. -/
def mostCommon (items : List (String × Nat)) (n : Nat) : List (String × Nat) :=
  (List.insertionSort (fun a b => b.2 ≤ a.2) items).take n

/-- Embedding of `get_common_topics` (src/app.py lines 151-181):

    all_captions_text = ' '.join(captions_series.astype(str)).lower()
    words = re.findall(r'\b[a-zA-Z0-9]+\b', all_captions_text)
    filtered_words = [word for word in words
                      if word not in stop_words and len(word) > 2]
    topic_counts = Counter(filtered_words).most_common(top_n)

The resulting `(Topic, Frequency)` rows are returned as a list of
pairs. -/
def get_common_topics (captions : List String) (top_n : Nat := 20) : List (String × Nat) :=
  let all_captions_text := pyLower (pyJoin " " captions)
  let words := (findallWordTokens all_captions_text.data).map (fun l => (⟨l⟩ : String))
  let filtered_words :=
    words.filter (fun w => !(stop_words.contains w) && decide (w.length > 2))
  mostCommon (counterItems filtered_words) top_n

/-- Comparison definition following claim C6's description of the
tokenization: maximal runs of ASCII letters and digits (ignoring the
`\b` boundaries of the actual regex), then the same filtering, counting
and ranking. -/
def commonTopics_claimed (captions : List String) (top_n : Nat := 20) : List (String × Nat) :=
  let text := pyLower (pyJoin " " captions)
  let words := (charRuns Char.isAlphanum text.data).map (fun l => (⟨l⟩ : String))
  let filtered :=
    words.filter (fun w => !(stop_words.contains w) && decide (w.length > 2))
  mostCommon (counterItems filtered) top_n

example :
    get_common_topics ["I love my new dog", "My dog is the best dog"] 5 =
      [("dog", 3), ("love", 1), ("best", 1)] := by decide
example : get_common_topics ["dog_"] 5 = [] := by decide
example : commonTopics_claimed ["dog_"] 5 = [("dog", 1)] := by decide
example : get_common_topics ["bbb aaa aaa bbb ccc"] 20 =
    [("bbb", 2), ("aaa", 2), ("ccc", 1)] := by decide

/-- Comparison definition following the amended description of C6: the
same pipeline as the claim's, with the tokenization corrected to the
actual regex semantics (`findallWordTokens`). -/
def commonTopics_amendedSpec (captions : List String) (top_n : Nat := 20) : List (String × Nat) :=
  let text := pyLower (pyJoin " " captions)
  let toks := (findallWordTokens text.data).map (fun l => (⟨l⟩ : String))
  let kept := toks.filter (fun w => !(stop_words.contains w) && decide (w.length > 2))
  mostCommon (counterItems kept) top_n

/-- A row of the aggregated table: an extracted record together with its
derived `Numeric Views` value (src/app.py line 210). -/
abbrev DataRow := VideoRecord × ℤ

/-- What line 244's `df.sort_values(by='Numeric Views', ascending=False)`
guarantees about its output: it is a permutation of the input rows,
in descending order of the numeric-views column.  (The tie order among
equal view counts is not constrained: the call uses pandas' default
`kind='quicksort'`, for which pandas documents no stability.) -/
def rankedByViewsDesc (rows out : List DataRow) : Prop :=
  rows.Perm out ∧ out.Sorted (fun a b => b.2 ≤ a.2)

/-! ### Helper lemmas -/

theorem mem_of_mem_dropWhile {a : Char} {p : Char → Bool} :
    ∀ l : List Char, a ∈ l.dropWhile p → a ∈ l := by
  intro l
  induction l with
  | nil => intro h; simp at h
  | cons c cs ih =>
    intro h
    by_cases hc : p c
    · simp only [List.dropWhile_cons, hc, if_true] at h
      exact List.mem_cons_of_mem _ (ih h)
    · simpa [List.dropWhile_cons, hc] using h

theorem mem_data_pyStrip {a : Char} {s : String} (h : a ∈ (pyStrip s).data) : a ∈ s.data := by
  simp only [pyStrip, List.mem_reverse] at h
  have h2 := mem_of_mem_dropWhile _ h
  rw [List.mem_reverse] at h2
  exact mem_of_mem_dropWhile _ h2

theorem mem_data_pyRemoveChar {a c : Char} {s : String}
    (h : a ∈ (pyRemoveChar s c).data) : a ∈ s.data :=
  (List.mem_filter.mp h).1

theorem parseSign_fst_false : ∀ {cs : List Char}, ('-' : Char) ∉ cs → (parseSign cs).1 = false := by
  intro cs h
  unfold parseSign
  split
  · exact absurd (List.mem_cons_self _ _) h
  · rfl
  · rfl

theorem signVal_false (v : DecValue) : signVal false v = v := rfl

theorem applyExp_num_nonneg {v : DecValue} (h : 0 ≤ v.num) (b : Bool) (e : Nat) :
    0 ≤ (applyExp v b e).num := by
  unfold applyExp
  split
  · exact h
  · exact mul_nonneg h (by positivity)

theorem parseExpPart_num_nonneg {v w : DecValue} (h : 0 ≤ v.num) :
    ∀ cs : List Char, parseExpPart v cs = some w → 0 ≤ w.num := by
  intro cs hp
  cases cs with
  | nil =>
    simp only [parseExpPart, Option.some.injEq] at hp
    exact hp ▸ h
  | cons c rest =>
    simp only [parseExpPart] at hp
    split at hp
    · split at hp
      · cases hp
      · simp only [Option.some.injEq] at hp
        exact hp ▸ applyExp_num_nonneg h _ _
    · cases hp

theorem mantissaVal_num_nonneg (ip fp : List Char) : 0 ≤ (mantissaVal ip fp).num :=
  Int.natCast_nonneg _

theorem pyParseFloatCore_num_nonneg {cs : List Char} {v : DecValue}
    (hm : ('-' : Char) ∉ cs) (h : pyParseFloatCore cs = some (.finite v)) : 0 ≤ v.num := by
  have hf : (parseSign cs).1 = false := parseSign_fst_false hm
  simp only [pyParseFloatCore, hf] at h
  split at h
  · simp at h
  · split at h
    · simp at h
    · split at h
      · cases h
      · split at h
        · rename_i q hq
          cases h
          rw [signVal_false]
          exact parseExpPart_num_nonneg (mantissaVal_num_nonneg _ _) _ hq
        · cases h

theorem pyParseFloat_num_nonneg {t : String} {v : DecValue}
    (hm : ('-' : Char) ∉ t.data) (h : pyParseFloat t = some (.finite v)) : 0 ≤ v.num :=
  pyParseFloatCore_num_nonneg (fun hx => hm (mem_data_pyStrip hx)) h

theorem mulNat_num_nonneg {v : DecValue} (h : 0 ≤ v.num) (m : ℕ) : 0 ≤ (v.mulNat m).num :=
  mul_nonneg h (Int.natCast_nonneg _)

theorem pyTrunc_nonneg {v : DecValue} (h : 0 ≤ v.num) : 0 ≤ pyTrunc v := by
  unfold pyTrunc
  rw [if_pos h]
  exact Int.natCast_nonneg _

theorem pyParseInt_nonneg {s : String} {z : ℤ} (hm : ('-' : Char) ∉ s.data)
    (h : pyParseInt s = some z) : 0 ≤ z := by
  have hm2 : ('-' : Char) ∉ (pyStrip s).data := fun hx => hm (mem_data_pyStrip hx)
  have hf : (parseSign (pyStrip s).data).1 = false := parseSign_fst_false hm2
  simp only [pyParseInt, hf, Bool.false_eq_true, if_false] at h
  split at h
  · cases h
  · cases h; exact Int.natCast_nonneg _

theorem splitChars_sepfree (sep : Char) :
    ∀ xs : List Char, sep ∉ xs → splitChars sep xs = [xs] := by
  intro xs
  induction xs with
  | nil => intro _; rfl
  | cons c cs ih =>
    intro h
    have hc : ¬ c = sep := fun he => h (by simp [he])
    have hcs : sep ∉ cs := fun hx => h (List.mem_cons_of_mem _ hx)
    simp only [splitChars, if_neg hc, ih hcs]

theorem splitChars_append (sep : Char) :
    ∀ xs : List Char, ∀ ys : List Char, sep ∉ xs →
      splitChars sep (xs ++ sep :: ys) = xs :: splitChars sep ys := by
  intro xs
  induction xs with
  | nil =>
    intro ys _
    simp [splitChars]
  | cons c cs ih =>
    intro ys h
    have hc : ¬ c = sep := fun he => h (by simp [he])
    have hcs : sep ∉ cs := fun hx => h (List.mem_cons_of_mem _ hx)
    rw [List.cons_append]
    simp only [splitChars, if_neg hc]
    rw [ih ys hcs]

theorem splitChars_sep_cons (sep : Char) (ys : List Char) :
    splitChars sep (sep :: ys) = [] :: splitChars sep ys := by
  simp [splitChars]

theorem splitChars_link (site handle vid : List Char)
    (hs : ('/' : Char) ∉ site) (hh : ('/' : Char) ∉ handle) :
    splitChars '/'
        (['h', 't', 't', 'p', 's', ':'] ++ '/' :: ('/' ::
          (site ++ '/' :: (('@' :: handle) ++ '/' ::
            (['v', 'i', 'd', 'e', 'o'] ++ '/' :: vid)))))
      = ['h', 't', 't', 'p', 's', ':'] :: [] :: site :: ('@' :: handle) ::
          ['v', 'i', 'd', 'e', 'o'] :: splitChars '/' vid := by
  rw [splitChars_append '/' ['h', 't', 't', 'p', 's', ':'] _ (by decide)]
  rw [splitChars_sep_cons]
  rw [splitChars_append '/' site _ hs]
  rw [splitChars_append '/' ('@' :: handle) _ (by simp [hh])]
  rw [splitChars_append '/' ['v', 'i', 'd', 'e', 'o'] _ (by decide)]

theorem aggregate_eq :
    ∀ files : List UploadedFile,
      aggregate files
        = ((files.map (fun f => (parse_html_file f).1)).join,
            (files.map (fun f => (parse_html_file f).2)).join) := by
  have aux : ∀ (files : List UploadedFile) (acc : List VideoRecord × List String),
      files.foldl
          (fun acc f =>
            let pr := parse_html_file f
            (acc.1 ++ pr.1, acc.2 ++ pr.2)) acc
        = (acc.1 ++ (files.map (fun f => (parse_html_file f).1)).join,
            acc.2 ++ (files.map (fun f => (parse_html_file f).2)).join) := by
    intro files
    induction files with
    | nil => intro acc; simp
    | cons f fs ih =>
      intro acc
      simp only [List.foldl_cons, ih, List.map_cons, List.join_cons, List.append_assoc]
  intro files
  unfold aggregate
  rw [aux]
  simp

theorem charRunsAux_append_sep (p : Char → Bool) (s : Char) (hs : p s = false)
    (ys : List Char) :
    ∀ xs acc : List Char,
      charRunsAux p (xs ++ s :: ys) acc = charRunsAux p xs acc ++ charRunsAux p ys [] := by
  intro xs
  induction xs with
  | nil =>
    intro acc
    by_cases hacc : acc = [] <;> simp [charRunsAux, hs, hacc]
  | cons c cs ih =>
    intro acc
    by_cases hc : p c
    · simp [charRunsAux, hc, ih]
    · by_cases hacc : acc = [] <;> simp [charRunsAux, hc, hacc, ih]

theorem findallWordTokens_append_space (x y : List Char) :
    findallWordTokens (x ++ ' ' :: y) = findallWordTokens x ++ findallWordTokens y := by
  unfold findallWordTokens charRuns
  rw [charRunsAux_append_sep isWordChar ' ' (by decide) y x [], List.filter_append]

/-! ### Claims -/

/-- Claim C1, counterexample.  The claim states that `parseViews` returns
a non-negative integer for every input string and never raises; but the
source's `int(views_str)` branch passes negative literals through
unchanged — `convert_views_to_numeric "-5"` returns `-5 < 0` — and on
the input `"infK"` the `int(float('inf') * 1000)` step raises an
`OverflowError` that the `except ValueError` clause does not catch. -/
theorem parseViews_claim_counterexample :
    convert_views_to_numeric "-5" = .ok (-5) ∧ (-5 : ℤ) < 0
    ∧ convert_views_to_numeric "infK" = .error "OverflowError" := by
  refine ⟨by decide, by decide, by decide⟩

/-- Claim C1, amended: for every input string `parseViews` either
returns a defined integer or raises `OverflowError` (the latter only on
inputs whose K/M remainder parses as an infinite float, e.g. "infK");
whenever a parse step fails with a `ValueError` (non-numeric remainder,
empty string, malformed number, NaN) the result is exactly 0; and the
result is non-negative whenever the input contains no minus sign (it is
negative for explicitly negative numeric inputs such as "-5"). -/
theorem parseViews_amended :
    (∀ s, (∃ z, convert_views_to_numeric s = .ok z)
        ∨ convert_views_to_numeric s = .error "OverflowError")
    ∧ (∀ s, pyContains (pyStrip s) 'K' = false → pyContains (pyStrip s) 'M' = false →
        pyParseInt (pyStrip s) = none → convert_views_to_numeric s = .ok 0)
    ∧ (∀ s, pyContains (pyStrip s) 'K' = true →
        (pyParseFloat (pyRemoveChar (pyStrip s) 'K') = none ∨
          pyParseFloat (pyRemoveChar (pyStrip s) 'K') = some .nan) →
        convert_views_to_numeric s = .ok 0)
    ∧ (∀ s, pyContains (pyStrip s) 'K' = false → pyContains (pyStrip s) 'M' = true →
        (pyParseFloat (pyRemoveChar (pyStrip s) 'M') = none ∨
          pyParseFloat (pyRemoveChar (pyStrip s) 'M') = some .nan) →
        convert_views_to_numeric s = .ok 0)
    ∧ (∀ s z, ('-' : Char) ∉ s.data → convert_views_to_numeric s = .ok z → 0 ≤ z)
    ∧ convert_views_to_numeric "-5" = .ok (-5)
    ∧ convert_views_to_numeric "infK" = .error "OverflowError" := by
  refine ⟨?_, ?_, ?_, ?_, ?_, by decide, by decide⟩
  · intro s
    simp only [convert_views_to_numeric]
    split
    · split
      · exact Or.inl ⟨_, rfl⟩
      · exact Or.inr rfl
      · exact Or.inl ⟨0, rfl⟩
      · exact Or.inl ⟨0, rfl⟩
    · split
      · split
        · exact Or.inl ⟨_, rfl⟩
        · exact Or.inr rfl
        · exact Or.inl ⟨0, rfl⟩
        · exact Or.inl ⟨0, rfl⟩
      · split
        · exact Or.inl ⟨_, rfl⟩
        · exact Or.inl ⟨0, rfl⟩
  · intro s hK hM hI
    simp [convert_views_to_numeric, hK, hM, hI]
  · intro s hK h
    rcases h with h | h <;> simp [convert_views_to_numeric, hK, h]
  · intro s hK hM h
    rcases h with h | h <;> simp [convert_views_to_numeric, hK, hM, h]
  · intro s z hm hok
    have hm1 : ('-' : Char) ∉ (pyStrip s).data := fun hx => hm (mem_data_pyStrip hx)
    simp only [convert_views_to_numeric] at hok
    split at hok
    · rename_i hcond
      split at hok
      · rename_i v hv
        have hmK : ('-' : Char) ∉ (pyRemoveChar (pyStrip s) 'K').data :=
          fun hx => hm1 (mem_data_pyRemoveChar hx)
        cases hok
        exact pyTrunc_nonneg (mulNat_num_nonneg (pyParseFloat_num_nonneg hmK hv) _)
      · cases hok
      · cases hok; exact le_refl 0
      · cases hok; exact le_refl 0
    · split at hok
      · split at hok
        · rename_i v hv
          have hmM : ('-' : Char) ∉ (pyRemoveChar (pyStrip s) 'M').data :=
            fun hx => hm1 (mem_data_pyRemoveChar hx)
          cases hok
          exact pyTrunc_nonneg (mulNat_num_nonneg (pyParseFloat_num_nonneg hmM hv) _)
        · cases hok
        · cases hok; exact le_refl 0
        · cases hok; exact le_refl 0
      · split at hok
        · rename_i n hn
          cases hok
          exact pyParseInt_nonneg hm1 hn
        · cases hok; exact le_refl 0

/-- Claim C1, amended, witness: concrete applications of the amended
theorem — the integer branch fails on "xyz" and yields 0, the K branch
fails on "nanK" (NaN makes `int()` raise the `ValueError` being caught)
and yields 0, and the minus-free input "33.8K" yields a non-negative
result. -/
theorem parseViews_amended_witness :
    convert_views_to_numeric "xyz" = .ok 0
    ∧ convert_views_to_numeric "nanK" = .ok 0
    ∧ (0 : ℤ) ≤ 33800 :=
  ⟨parseViews_amended.2.1 "xyz" (by decide) (by decide) (by decide),
    parseViews_amended.2.2.1 "nanK" (by decide) (Or.inr (by decide)),
    parseViews_amended.2.2.2.2.1 "33.8K" 33800 (by decide) (by decide)⟩

/-- Claim C2: `parseViews` follows the specification's ordered rules —
trim; case-sensitive uppercase-"K" rule (strip, float-parse, ×1000,
truncate toward zero); else likewise for "M" with ×1000000; else integer
parse — stated as extensional equality with `parseViews_spec`, the
transcription of those rules; together with the specification's
concrete examples and the lowercase-"k" non-trigger. -/
theorem parseViews_rules_and_examples :
    (∀ raw, convert_views_to_numeric raw = parseViews_spec raw)
    ∧ convert_views_to_numeric "33.8K" = .ok 33800
    ∧ convert_views_to_numeric "795.7M" = .ok 795700000
    ∧ convert_views_to_numeric "1234" = .ok 1234
    ∧ convert_views_to_numeric "" = .ok 0
    ∧ convert_views_to_numeric "abc" = .ok 0
    ∧ convert_views_to_numeric "33.8k" = .ok 0 :=
  ⟨fun _ => rfl, by decide, by decide, by decide, by decide, by decide, by decide⟩

/-- Claim C4, counterexample.  The claim states that a malformed link
(here: the 4th "/"-segment is "video", which does not start with "@")
yields `profileHandle == "unknown"`; the source instead keeps the
initialization `profile_name = "N/A"` (src/app.py line 58). -/
theorem profileHandle_claim_counterexample :
    extractProfileName "https://www.tiktok.com/video/123" = "N/A"
    ∧ extractProfileName "https://www.tiktok.com/video/123" ≠ "unknown" := by
  refine ⟨by decide, by decide⟩

/-- Claim C4, amended: `profileHandle` is computed by splitting `link`
on "/" and taking the zero-based 4th segment when it exists and starts
with "@" — so every link of the form `https://site/@handle/video/<id>`
(with no "/" inside `site` or `handle`) yields `"@handle"` — and every
malformed link (fewer than 4 segments, or 4th segment not starting with
"@") yields the sentinel `"N/A"` (not "unknown"); no link shape raises
(the embedding is total by construction). -/
theorem profileHandle_amended :
    (∀ site handle vid : String,
        ('/' : Char) ∉ site.data → ('/' : Char) ∉ handle.data →
        extractProfileName ("https://" ++ site ++ "/@" ++ handle ++ "/video/" ++ vid)
          = "@" ++ handle)
    ∧ (∀ link : String,
        ((pySplitChar '/' link).length ≤ 3 ∨
          pyStartsWith ((pySplitChar '/' link).getD 3 "") "@" = false) →
        extractProfileName link = "N/A") := by
  constructor
  · intro site handle vid hsite hhandle
    have hd : ("https://" ++ site ++ "/@" ++ handle ++ "/video/" ++ vid).data
        = ['h', 't', 't', 'p', 's', ':'] ++ '/' :: ('/' ::
            (site.data ++ '/' :: (('@' :: handle.data) ++ '/' ::
              (['v', 'i', 'd', 'e', 'o'] ++ '/' :: vid.data)))) := by
      simp [String.data_append]
    have hne : ("https://" ++ site ++ "/@" ++ handle ++ "/video/" ++ vid) ≠ "N/A" := by
      intro h
      have h2 := congrArg String.data h
      rw [hd] at h2
      simp at h2
    unfold extractProfileName
    rw [if_neg hne]
    unfold pySplitChar
    rw [hd, splitChars_link site.data handle.data vid.data hsite hhandle]
    simp only [List.map_cons, List.getElem?_cons_succ, List.getElem?_cons_zero]
    have hpre : pyStartsWith (⟨'@' :: handle.data⟩ : String) "@" = true := by
      simp [pyStartsWith, List.isPrefixOf]
    rw [hpre]
    simp only [if_true]
    exact String.ext (by simp [String.data_append])
  · intro link h
    unfold extractProfileName
    by_cases hna : link = "N/A"
    · rw [if_pos hna]
    · rw [if_neg hna]
      cases hget : (pySplitChar '/' link)[3]? with
      | none => rfl
      | some p =>
        show (if pyStartsWith p "@" = true then p else "N/A") = "N/A"
        rcases h with h | h
        · obtain ⟨hlt, -⟩ := List.getElem?_eq_some.mp hget
          omega
        · have hgd : (pySplitChar '/' link).getD 3 "" = p := by
            simp [List.getD_eq_getElem?_getD, hget]
          rw [hgd] at h
          rw [if_neg (by simp [h])]

/-- Claim C4, amended, witness: the well-formed link
`https://www.tiktok.com/@user/video/123` yields "@user", and the
malformed link "foo" (a single segment) yields "N/A". -/
theorem profileHandle_amended_witness :
    extractProfileName ("https://" ++ "www.tiktok.com" ++ "/@" ++ "user" ++ "/video/" ++ "123")
      = "@" ++ "user"
    ∧ extractProfileName "foo" = "N/A" :=
  ⟨profileHandle_amended.1 "www.tiktok.com" "user" "123" (by decide) (by decide),
    profileHandle_amended.2 "foo" (Or.inl (by decide))⟩

/-- Claim C5, counterexample.  The claim states that a container that is
merely missing its anchor yields a record with `link == "unknown"`; the
source's default for a missing anchor is `"N/A"` (src/app.py line 55). -/
theorem container_missing_anchor_counterexample :
    (extractContainer ⟨none, some "10", some (some "cap"), none⟩).link = "N/A"
    ∧ (extractContainer ⟨none, some "10", some (some "cap"), none⟩).link ≠ "unknown" := by
  refine ⟨by decide, by decide⟩

/-- Claim C5, amended: a per-container extraction failure never aborts
the document — the failing container yields the sentinel record
`link = "PARSE_ERROR"` with the failure description in place of the
caption, and every container still yields exactly one record — while a
container merely missing its anchor yields a normal record with
`link = "N/A"` (not "unknown"; a handled absence, not a sentinel), so a
document with one well-formed container and one anchor-less container
yields exactly two records. -/
theorem container_failure_isolation_amended :
    (∀ lh vt ia e, extractContainer ⟨lh, vt, ia, some e⟩ = ⟨"PARSE_ERROR", "N/A", "N/A", e⟩)
    ∧ (∀ (name : String) (c : Container) (cs : List Container),
        (parse_html_file ⟨name, .ok (c :: cs)⟩).1 = (c :: cs).map extractContainer)
    ∧ (∀ vt ia, (extractContainer ⟨none, vt, ia, none⟩).link = "N/A"
        ∧ (extractContainer ⟨none, vt, ia, none⟩).link ≠ "PARSE_ERROR")
    ∧ parse_html_file ⟨"doc.html", .ok
        [⟨some (some "https://www.tiktok.com/@user/video/1"), some "33.8K",
            some (some "nice cat"), none⟩,
          ⟨none, some "10", some (some "other cap"), none⟩]⟩
      = ([⟨"https://www.tiktok.com/@user/video/1", "@user", "33.8K", "nice cat"⟩,
          ⟨"N/A", "N/A", "10", "other cap"⟩], []) := by
  refine ⟨fun lh vt ia e => rfl, ?_,
    fun vt ia => ⟨rfl, fun h => (by decide : ("N/A" : String) ≠ "PARSE_ERROR") h⟩, by decide⟩
  intro name c cs
  simp [parse_html_file]

/-- Claim C7: aggregation never raises, performs no deduplication and no
reordering — the aggregate record list is exactly the concatenation, in
input order, of each document's extracted records — and a document whose
content fails to decode contributes no records and one diagnostic keyed
by its name, while all other documents' records are preserved; with the
specification's concrete example (first document yields 3 records, the
second is undecodable, the result is exactly those 3 records). -/
theorem aggregate_concat_and_skip :
    (∀ files, (aggregate files).1 = (files.map (fun f => (parse_html_file f).1)).join)
    ∧ (∀ name e : String, parse_html_file ⟨name, .error e⟩
        = ([], ["Error reading file " ++ name ++ ": " ++ e]))
    ∧ aggregate
        [⟨"a.html", .ok
            [⟨some (some "L1"), some "5", some (some "c1"), none⟩,
              ⟨some (some "L2"), some "6", some (some "c2"), none⟩,
              ⟨some (some "L3"), some "7", some (some "c3"), none⟩]⟩,
          ⟨"b.html", .error "invalid start byte"⟩]
      = ([⟨"L1", "N/A", "5", "c1"⟩, ⟨"L2", "N/A", "6", "c2"⟩, ⟨"L3", "N/A", "7", "c3"⟩],
          ["Error reading file b.html: invalid start byte"]) := by
  refine ⟨?_, fun name e => rfl, by decide⟩
  intro files
  rw [aggregate_eq]

/-- Claim C8: a document with zero post-item containers yields the empty
record sequence together with a non-fatal warning naming the document,
and does not raise (the embedding returns normally). -/
theorem empty_containers_warning :
    ∀ name : String,
      parse_html_file ⟨name, .ok []⟩
        = ([], ["No video posts found in " ++ name ++ "."]) := by
  intro name
  rfl

/-- Claim C6, counterexample.  The claim describes the tokenization as
"maximal runs of ASCII letters and digits", but the source regex
`\b[a-zA-Z0-9]+\b` also requires word boundaries: on the caption "dog_"
the run "dog" is followed by the word character '_', so the code finds
no token at all, while the claim's tokenization would count "dog". -/
theorem commonTopics_tokenization_counterexample :
    get_common_topics ["dog_"] 5 = []
    ∧ commonTopics_claimed ["dog_"] 5 = [("dog", 1)]
    ∧ get_common_topics ["dog_"] 5 ≠ commonTopics_claimed ["dog_"] 5 := by
  refine ⟨by decide, by decide, by decide⟩

/-- Claim C6, amended: `commonTopics` lower-cases the space-joined
captions, tokenizes them with `\b[a-zA-Z0-9]+\b` — maximal runs of word
characters that consist entirely of ASCII letters and digits — discards
every token of length ≤ 2 and every token in the fixed stop-word set,
and returns the topN (word, count) pairs by count descending with ties
broken by first-occurrence order; concretely, on
["I love my new dog", "My dog is the best dog"] with topN = 5 the stop
words "my", "is", "the" (and "new") are excluded and "dog" ranks first
with count 3; ties keep first-occurrence order; and a run containing an
underscore contributes no token. -/
theorem commonTopics_amended :
    (∀ captions n, get_common_topics captions n = commonTopics_amendedSpec captions n)
    ∧ get_common_topics ["I love my new dog", "My dog is the best dog"] 5
        = [("dog", 3), ("love", 1), ("best", 1)]
    ∧ get_common_topics ["bbb aaa aaa bbb ccc"] 20 = [("bbb", 2), ("aaa", 2), ("ccc", 1)]
    ∧ get_common_topics ["good_dog fun"] 5 = [("fun", 1)] :=
  ⟨fun _ _ => rfl, by decide, by decide, by decide⟩

/-- Claim C9: the captions are joined with a single space before
lower-casing and tokenizing, so no token ever spans two captions, and
the token sequence of the joined text is exactly the concatenation of
the token sequences of the individual captions (which implies the
claimed multiset equality). -/
theorem tokenization_distributes :
    ∀ captions : List String,
      findallWordTokens (pyLower (pyJoin " " captions)).data
        = (captions.map (fun c => findallWordTokens (pyLower c).data)).join := by
  intro captions
  induction captions with
  | nil => rfl
  | cons c cs ih =>
    cases cs with
    | nil => simp [pyJoin, joinWith, pyLower]
    | cons d ds =>
      have hsp : Char.toLower ' ' = ' ' := rfl
      have hdata : (pyLower (pyJoin " " (c :: d :: ds))).data
          = (pyLower c).data ++ ' ' :: (pyLower (pyJoin " " (d :: ds))).data := by
        simp [pyJoin, pyLower, joinWith, hsp]
      rw [hdata, findallWordTokens_append_space, ih]
      simp

/-- Claim C10: a sentinel record emitted for a per-container extraction
failure carries the non-numeric raw views field "N/A", whose numeric
conversion is 0; consequently, in any output of the viral ranking's
descending sort, such a record never appears at a smaller index than a
record with a positive numeric view count. -/
theorem sentinel_never_outranks :
    (∀ lh vt ia e, (extractContainer ⟨lh, vt, ia, some e⟩).views = "N/A")
    ∧ convert_views_to_numeric "N/A" = .ok 0
    ∧ ∀ rows out : List DataRow,
        (∀ p ∈ rows, convert_views_to_numeric p.1.views = .ok p.2) →
        rankedByViewsDesc rows out →
        ∀ i j : Fin out.length,
          (out.get i).1.link = "PARSE_ERROR" →
          (out.get i).1.views = "N/A" →
          0 < (out.get j).2 →
          j < i := by
  refine ⟨fun lh vt ia e => rfl, by decide, ?_⟩
  intro rows out hrows hrank i j hlink hv hpos
  have hmem : out.get i ∈ rows := hrank.1.mem_iff.mpr (List.get_mem out i.1 i.2)
  have hzero : (out.get i).2 = 0 := by
    have h1 := hrows _ hmem
    rw [hv] at h1
    have h2 : (Except.ok ((out.get i).2) : Except String ℤ) = Except.ok (0 : ℤ) := by
      rw [← h1]
      decide
    injection h2
  rcases lt_trichotomy i j with hij | hij | hij
  · have := hrank.2.rel_get_of_lt hij
    rw [hzero] at this
    omega
  · rw [hij] at hzero
    omega
  · exact hij

/-- Claim C10, witness: a concrete two-row table (one sentinel row with
views "N/A" and numeric value 0, one genuine row with 0 < 5 views) and
its concrete descending sort, where the genuine row indeed precedes the
sentinel. -/
theorem sentinel_never_outranks_witness :
    ((⟨0, by decide⟩ : Fin 2) : Fin 2) < (⟨1, by decide⟩ : Fin 2) :=
  sentinel_never_outranks.2.2
    [((⟨"PARSE_ERROR", "N/A", "N/A", "boom"⟩ : VideoRecord), (0 : ℤ)),
      ((⟨"https://x/@u/video/1", "@u", "5", "cap"⟩ : VideoRecord), (5 : ℤ))]
    [((⟨"https://x/@u/video/1", "@u", "5", "cap"⟩ : VideoRecord), (5 : ℤ)),
      ((⟨"PARSE_ERROR", "N/A", "N/A", "boom"⟩ : VideoRecord), (0 : ℤ))]
    (by decide) ⟨by decide, by decide⟩
    ⟨1, by decide⟩ ⟨0, by decide⟩ (by decide) (by decide) (by decide)

end ContentGap
